import Mathlib

/-!
Verification of the rompatcher patch-application engine.

Byte streams are modelled as lists of natural numbers (each element is one
byte, a value below 256).  Machine integers are modelled as natural numbers
with explicit bounds or explicit reductions modulo a power of two at the
points where the Rust code performs checked or wrapping arithmetic.
Fallible operations return Except or Option values; io::ErrorKind values that
the engine inspects are modelled by an explicit inductive type.  Loops whose
termination is not structural take a fuel parameter and return none when the
fuel runs out.
-/

namespace Rompatcher

/-- The error taxonomy shared by the five decoders
(rompatcher/src/patch/mod.rs, bps.rs, ups.rs, ips.rs, ppf.rs, vcd.rs). -/
inductive PatchingError
  | badPatch
  | wrongInputFile
  | inputFileTooSmall
  | alreadyPatched
  | unsupportedPatchFeature
  deriving DecidableEq, Repr

/-- The io::ErrorKind values the engine inspects when classifying low-level
errors (mod.rs lines 307-319, rompatcher-err/src/lib.rs). -/
inductive IoErrorKind
  | invalidInput
  | invalidData
  | unexpectedEof
  | writeZero
  | other
  deriving DecidableEq, Repr

/-- Conversion From io::Error for patch::Error (mod.rs lines 307-319):
the four listed kinds become BadPatch, anything else passes through as an
IO error (modelled as none). -/
def io_error_to_patch_error : IoErrorKind → Option PatchingError
  | .invalidInput => some .badPatch
  | .invalidData => some .badPatch
  | .unexpectedEof => some .badPatch
  | .writeZero => some .badPatch
  | .other => none

/-- Errors of the two variable-length-integer decoders: end of input
(read_u8 returning UnexpectedEof) or arithmetic overflow (DecodingError for
the byuu dialect, InvalidData for the Vcdiff dialect). -/
inductive VarintError
  | eof
  | overflow
  deriving DecidableEq, Repr

/-- Upper bound of the u64 type. -/
def U64 : Nat := 2 ^ 64

/-- Byuu-dialect varint decoder, from ReadNumber::read_number
(rompatcher/src/patch/byuu/varint.rs lines 16-34).  The accumulator data and
the shift are u64 values manipulated through the Checked wrapper, so every
multiplication and addition is overflow-checked; the checks are modelled by
explicit comparisons against 2^64 (checking the sum subsumes checking the
products it contains, since with exact arithmetic the sum is at least as
large).  The byte just read is b; the low seven bits are added scaled by the
shift, the high bit terminates, and after every non-terminal byte the next
power-of-128 shift is added to the accumulator. -/
def read_number : List Nat → Nat → Nat → Except VarintError (Nat × List Nat)
  | [], _, _ => .error .eof
  | b :: rest, shift, data =>
    if U64 ≤ (b &&& 0x7F) * shift + data then .error .overflow
    else if b &&& 0x80 = 0x80 then .ok ((b &&& 0x7F) * shift + data, rest)
    else if U64 ≤ (b &&& 0x7F) * shift + data + shift * 128 then .error .overflow
    else read_number rest (shift * 128) ((b &&& 0x7F) * shift + data + shift * 128)

/-- Unbounded mathematical value of the byuu varint encoding: the same
recursion as read_number with exact natural-number arithmetic and no
overflow checks. -/
def decodeNumber : List Nat → Nat → Nat → Option (Nat × List Nat)
  | [], _, _ => none
  | b :: rest, shift, data =>
    if b &&& 0x80 = 0x80 then some ((b &&& 0x7F) * shift + data, rest)
    else decodeNumber rest (shift * 128) ((b &&& 0x7F) * shift + data + shift * 128)

/-- Vcdiff-dialect varint decoder, from VcdiffRead::read_integer
(rompatcher/src/patch/vcd.rs lines 404-427) for a target integer type with
M values (M = 2^32 for u32, 2^64 for u64).  The multiplication by 128 is a
checked_mul performed before the byte is read; the following addition of the
low seven bits is an unchecked machine addition, modelled by an explicit
reduction modulo M. -/
def read_integer (M : Nat) : List Nat → Nat → Except VarintError (Nat × List Nat)
  | [], value =>
    if M ≤ value * 128 then .error .overflow else .error .eof
  | b :: rest, value =>
    if M ≤ value * 128 then .error .overflow
    else if b &&& 0x80 = 0 then .ok ((value * 128 + (b &&& 0x7F)) % M, rest)
    else read_integer M rest ((value * 128 + (b &&& 0x7F)) % M)

/-- Unbounded mathematical value of the Vcdiff varint encoding. -/
def decodeInteger : List Nat → Nat → Option (Nat × List Nat)
  | [], _ => none
  | b :: rest, value =>
    if b &&& 0x80 = 0 then some (value * 128 + (b &&& 0x7F), rest)
    else decodeInteger rest (value * 128 + (b &&& 0x7F))

/-- The conversion From DecodingError for the UPS and BPS PatchingError
types (ups.rs lines 253-257, bps.rs lines 274-278): a varint overflow is
reported as BadPatch. -/
def decoding_error_to_patching_error : PatchingError := .badPatch

theorem decodeNumber_le (bytes : List Nat) :
    ∀ shift data v r, decodeNumber bytes shift data = some (v, r) → data ≤ v := by
  induction bytes with
  | nil => intro shift data v r h; simp [decodeNumber] at h
  | cons b rest ih =>
    intro shift data v r h
    simp only [decodeNumber] at h
    split at h
    · rw [Option.some.injEq, Prod.mk.injEq] at h
      omega
    · have := ih (shift * 128) ((b &&& 0x7F) * shift + data + shift * 128) v r h
      omega

theorem read_number_ok_iff (bytes : List Nat) :
    ∀ shift data v r,
      read_number bytes shift data = .ok (v, r) ↔
        (decodeNumber bytes shift data = some (v, r) ∧ v < U64) := by
  induction bytes with
  | nil =>
    intro shift data v r
    simp [read_number, decodeNumber]
  | cons b rest ih =>
    intro shift data v r
    simp only [read_number, decodeNumber]
    by_cases hov : U64 ≤ (b &&& 0x7F) * shift + data
    · rw [if_pos hov]
      constructor
      · intro h; cases h
      · rintro ⟨h1, h2⟩
        split at h1
        · rw [Option.some.injEq, Prod.mk.injEq] at h1
          omega
        · have := decodeNumber_le rest _ _ v r h1
          omega
    · rw [if_neg hov]
      by_cases hmsb : b &&& 0x80 = 0x80
      · rw [if_pos hmsb, if_pos hmsb]
        constructor
        · intro h
          rw [Except.ok.injEq, Prod.mk.injEq] at h
          obtain ⟨h1, h2⟩ := h
          subst h1; subst h2
          exact ⟨rfl, by omega⟩
        · rintro ⟨h1, _⟩
          rw [Option.some.injEq, Prod.mk.injEq] at h1
          obtain ⟨h2, h3⟩ := h1
          subst h2; subst h3; rfl
      · rw [if_neg hmsb, if_neg hmsb]
        by_cases hov2 : U64 ≤ (b &&& 0x7F) * shift + data + shift * 128
        · rw [if_pos hov2]
          constructor
          · intro h; cases h
          · rintro ⟨h1, h2⟩
            have := decodeNumber_le rest _ _ v r h1
            omega
        · rw [if_neg hov2]
          exact ih _ _ v r

theorem read_number_overflow (bytes : List Nat) :
    ∀ shift data v r, decodeNumber bytes shift data = some (v, r) → U64 ≤ v →
      read_number bytes shift data = .error .overflow := by
  induction bytes with
  | nil => intro shift data v r h; simp [decodeNumber] at h
  | cons b rest ih =>
    intro shift data v r h hv
    simp only [decodeNumber] at h
    simp only [read_number]
    by_cases hov : U64 ≤ (b &&& 0x7F) * shift + data
    · rw [if_pos hov]
    · rw [if_neg hov]
      split at h
      · rename_i hmsb
        rw [Option.some.injEq, Prod.mk.injEq] at h
        omega
      · rename_i hmsb
        rw [if_neg hmsb]
        by_cases hov2 : U64 ≤ (b &&& 0x7F) * shift + data + shift * 128
        · rw [if_pos hov2]
        · rw [if_neg hov2]
          exact ih _ _ v r h hv

theorem decodeInteger_le (bytes : List Nat) :
    ∀ value v r, decodeInteger bytes value = some (v, r) → value ≤ v := by
  induction bytes with
  | nil => intro value v r h; simp [decodeInteger] at h
  | cons b rest ih =>
    intro value v r h
    simp only [decodeInteger] at h
    have hle : value ≤ value * 128 + (b &&& 0x7F) := by nlinarith
    split at h
    · rw [Option.some.injEq, Prod.mk.injEq] at h
      omega
    · have := ih _ v r h
      omega

theorem vcdiff_mul_no_wrap {M value : Nat} (hM : 128 ∣ M)
    (h : value * 128 < M) (low : Nat) (hlow : low < 128) :
    value * 128 + low < M := by
  obtain ⟨k, hk⟩ := hM
  subst hk
  have : value < k := by nlinarith
  nlinarith

theorem read_integer_ok_iff (M : Nat) (hM : 128 ∣ M) (bytes : List Nat) :
    ∀ value v r,
      read_integer M bytes value = .ok (v, r) ↔
        (decodeInteger bytes value = some (v, r) ∧ v < M) := by
  induction bytes with
  | nil =>
    intro value v r
    constructor
    · intro h
      simp only [read_integer] at h
      split at h <;> cases h
    · rintro ⟨h, _⟩; simp [decodeInteger] at h
  | cons b rest ih =>
    intro value v r
    simp only [read_integer, decodeInteger]
    by_cases hov : M ≤ value * 128
    · rw [if_pos hov]
      constructor
      · intro h; cases h
      · rintro ⟨h1, h2⟩
        have hle : value ≤ value * 128 + (b &&& 0x7F) := by nlinarith
        split at h1
        · rw [Option.some.injEq, Prod.mk.injEq] at h1
          omega
        · have := decodeInteger_le rest _ v r h1
          omega
    · rw [if_neg hov]
      push_neg at hov
      have hlow : (b &&& 0x7F) < 128 := by
        have : b &&& 0x7F ≤ 0x7F := Nat.and_le_right
        omega
      have hnw : value * 128 + (b &&& 0x7F) < M := vcdiff_mul_no_wrap hM hov _ hlow
      have hmod : (value * 128 + (b &&& 0x7F)) % M = value * 128 + (b &&& 0x7F) :=
        Nat.mod_eq_of_lt hnw
      rw [hmod]
      by_cases hmsb : b &&& 0x80 = 0
      · rw [if_pos hmsb, if_pos hmsb]
        constructor
        · intro h
          rw [Except.ok.injEq, Prod.mk.injEq] at h
          obtain ⟨h1, h2⟩ := h
          subst h1; subst h2
          exact ⟨rfl, hnw⟩
        · rintro ⟨h1, _⟩
          rw [Option.some.injEq, Prod.mk.injEq] at h1
          obtain ⟨h2, h3⟩ := h1
          subst h2; subst h3; rfl
      · rw [if_neg hmsb, if_neg hmsb]
        exact ih _ v r

theorem read_integer_overflow (M : Nat) (hM : 128 ∣ M) (bytes : List Nat) :
    ∀ value v r, decodeInteger bytes value = some (v, r) → M ≤ v →
      read_integer M bytes value = .error .overflow := by
  induction bytes with
  | nil => intro value v r h; simp [decodeInteger] at h
  | cons b rest ih =>
    intro value v r h hv
    simp only [decodeInteger] at h
    simp only [read_integer]
    by_cases hov : M ≤ value * 128
    · rw [if_pos hov]
    · rw [if_neg hov]
      push_neg at hov
      have hlow : (b &&& 0x7F) < 128 := by
        have : b &&& 0x7F ≤ 0x7F := Nat.and_le_right
        omega
      have hnw : value * 128 + (b &&& 0x7F) < M := vcdiff_mul_no_wrap hM hov _ hlow
      have hmod : (value * 128 + (b &&& 0x7F)) % M = value * 128 + (b &&& 0x7F) :=
        Nat.mod_eq_of_lt hnw
      rw [hmod]
      split at h
      · rename_i hmsb
        rw [Option.some.injEq, Prod.mk.injEq] at h
        rw [if_pos hmsb]
        omega
      · rename_i hmsb
        rw [if_neg hmsb]
        exact ih _ v r h hv

/-- C10: both variable-length-integer decoders detect overflow of the
accumulator and fail (the byuu decoder read_number for values exceeding
u64, and the Vcdiff decoder read_integer for values exceeding its target
type), and a successfully decoded value is always the exact unbounded value
of the consumed bytes, never a wrapped one; the overflow error is reported
as BadPatch. -/
theorem C10_varint_overflow_detected :
    (∀ bytes v r, decodeNumber bytes 1 0 = some (v, r) → U64 ≤ v →
       read_number bytes 1 0 = .error .overflow) ∧
    (∀ bytes v r, read_number bytes 1 0 = .ok (v, r) →
       decodeNumber bytes 1 0 = some (v, r) ∧ v < U64) ∧
    (∀ M, 128 ∣ M → ∀ bytes value v r,
       decodeInteger bytes value = some (v, r) → M ≤ v →
       read_integer M bytes value = .error .overflow) ∧
    (∀ M, 128 ∣ M → ∀ bytes value v r,
       read_integer M bytes value = .ok (v, r) →
       decodeInteger bytes value = some (v, r) ∧ v < M) ∧
    decoding_error_to_patching_error = .badPatch := by
  refine ⟨?_, ?_, ?_, ?_, rfl⟩
  · intro bytes v r h hv; exact read_number_overflow bytes 1 0 v r h hv
  · intro bytes v r h; exact (read_number_ok_iff bytes 1 0 v r).mp h
  · intro M hM bytes value v r h hv; exact read_integer_overflow M hM bytes value v r h hv
  · intro M hM bytes value v r h; exact (read_integer_ok_iff M hM bytes value v r).mp h

/-- C10 witness: the eleven-byte byuu encoding consisting of ten zero bytes
and a terminator denotes a value of at least 2^64, and read_number rejects
it as an overflow; likewise the Vcdiff encoding of 2^32 is rejected by the
u32 instantiation of read_integer. -/
theorem C10_varint_overflow_detected_witness :
    read_number [0, 0, 0, 0, 0, 0, 0, 0, 0, 0, 128] 1 0 = .error .overflow ∧
    read_integer (2 ^ 32) [0x90, 0x80, 0x80, 0x80, 0x00] 0 = .error .overflow := by
  constructor
  · refine C10_varint_overflow_detected.1 _
      (128 + 128 ^ 2 + 128 ^ 3 + 128 ^ 4 + 128 ^ 5 + 128 ^ 6 + 128 ^ 7 +
        128 ^ 8 + 128 ^ 9 + 128 ^ 10) [] ?_ ?_
    · decide
    · decide
  · refine C10_varint_overflow_detected.2.2.1 (2 ^ 32) ⟨2 ^ 25, by norm_num⟩ _ 0
      (2 ^ 32) [] ?_ ?_
    · decide
    · norm_num

/-- The patch format kinds of the dispatcher (mod.rs lines 107-114). -/
inductive Kind
  | IPS
  | UPS
  | BPS
  | PPF
  | VCD
  deriving DecidableEq, Repr

/-- Helper set_msb from vcd.rs lines 547-555: the constant function applied
to each array element is a bitwise AND with 0x80 (the code uses the operator
of intersection, not of union). -/
def set_msb (arr : List Nat) : List Nat := arr.map (fun b => b &&& 0x80)

/-- IPS magic, ips.rs line 12. -/
def ips_MAGIC : List Nat := [0x50, 0x41, 0x54]

/-- UPS magic, ups.rs line 21. -/
def ups_MAGIC : List Nat := [0x55, 0x50, 0x53]

/-- BPS magic, bps.rs line 19. -/
def bps_MAGIC : List Nat := [0x42, 0x50, 0x53]

/-- PPF magic, ppf.rs line 17. -/
def ppf_MAGIC : List Nat := [0x50, 0x50, 0x46]

/-- Vcdiff magic, vcd.rs line 16: set_msb applied to the ASCII bytes of
the letters V, C and D. -/
def vcd_MAGIC : List Nat := set_msb [0x56, 0x43, 0x44]

/-- ReadExt::read_array of n bytes (read-write-utils/src/prelude.rs):
returns the first n bytes and the remainder, or UnexpectedEof when fewer
than n bytes remain. -/
def read_array (n : Nat) (file : List Nat) : Except IoErrorKind (List Nat × List Nat) :=
  if file.length < n then .error .unexpectedEof else .ok (file.take n, file.drop n)

/-- Format dispatcher find_patch_kind (mod.rs lines 43-55): reads the first
three bytes, rewinds, and matches them against the five magic constants;
anything else is an InvalidData error (which the dispatcher converts to
BadPatch). -/
def find_patch_kind (file : List Nat) : Except IoErrorKind Kind :=
  match read_array 3 file with
  | .error e => .error e
  | .ok (magic, _) =>
    if magic = ips_MAGIC then .ok .IPS
    else if magic = ups_MAGIC then .ok .UPS
    else if magic = bps_MAGIC then .ok .BPS
    else if magic = ppf_MAGIC then .ok .PPF
    else if magic = vcd_MAGIC then .ok .VCD
    else .error .invalidData

/-- Magic check at the start of vcd::patch (vcd.rs line 36): the first three
bytes of the patch must equal vcd_MAGIC. -/
def vcd_patch_magic_ok (patch : List Nat) : Bool :=
  decide (3 ≤ patch.length) && (patch.take 3 == vcd_MAGIC)

/-- C1: the spec says a patch starting with the bytes 0xD6 0xC3 0xC4 (ASCII
VCD with the most significant bit of each byte set) is routed to the Vcdiff
decoder and accepted by its magic check.  In the code, set_msb computes a
bitwise AND with 0x80 instead of an OR, so vcd_MAGIC evaluates to three zero
bytes: the dispatcher rejects a real Vcdiff patch as InvalidData (mapped to
BadPatch), the Vcdiff decoder itself rejects it, and a patch of three zero
bytes (which matches none of the five documented magics) is routed to the
Vcdiff decoder instead of being rejected. -/
theorem C1_vcd_magic_uses_and_not_or :
    vcd_MAGIC = [0, 0, 0] ∧
    find_patch_kind [0xD6, 0xC3, 0xC4] = .error .invalidData ∧
    io_error_to_patch_error .invalidData = some .badPatch ∧
    vcd_patch_magic_ok [0xD6, 0xC3, 0xC4] = false ∧
    find_patch_kind [0, 0, 0] = .ok .VCD := by
  refine ⟨by decide, rfl, rfl, by decide, rfl⟩

/-- Result of executing one decoder step: a normal result, a patching error,
a Rust panic (failed assertion or out-of-bounds slice index), or a
non-terminating loop (modelled through fuel exhaustion that is proved to
occur at every fuel value). -/
inductive StepResult (α : Type)
  | ok (a : α)
  | err (e : PatchingError)
  | panic
  | diverge
  deriving DecidableEq, Repr

/-- Read loop of RepeatSlice::read (read-write-utils/src/repeat.rs lines
49-57) for a slice of length at least two, reading into a destination
buffer of length bufLen.  Each iteration copies min(bufLen, len - pos)
bytes into the start of the buffer and advances the cursor, wrapping it to
zero at the end of the slice; the loop exits, returning the length of the
buffer, only when the buffer is empty, because the buffer is never shrunk
between iterations.  The fuel parameter bounds the number of iterations;
none means the fuel ran out. -/
def repeat_slice_read_go (slice : List Nat) (bufLen : Nat) : Nat → Nat → Option Nat
  | _, 0 => none
  | pos, fuel + 1 =>
    let k := min bufLen (slice.length - pos)
    let pos2 := if pos + k = slice.length then 0 else pos + k
    if bufLen = 0 then some bufLen else repeat_slice_read_go slice bufLen pos2 fuel

/-- A call of std::io::copy on a Take of a RepeatSlice with the given limit,
appending to out.  io::copy requests at most its internal buffer size (8192
bytes) per read, bounded by the remaining Take limit; a read that returns
zero bytes ends the copy.  Since RepeatSlice::read only ever returns for an
empty destination buffer, the copy can only terminate when the limit is
zero. -/
def copy_from_repeat_slice (slice : List Nat) (limit : Nat) (fuel : Nat)
    (out : List Nat) : Option (List Nat) :=
  if limit = 0 then some out
  else
    match repeat_slice_read_go slice (min 8192 limit) 0 fuel with
    | none => none
    | some _ => some out

theorem repeat_slice_read_go_none (slice : List Nat) (bufLen : Nat)
    (hb : bufLen ≠ 0) : ∀ fuel pos, repeat_slice_read_go slice bufLen pos fuel = none := by
  intro fuel
  induction fuel with
  | zero => intro pos; rfl
  | succ n ih =>
    intro pos
    simp only [repeat_slice_read_go, if_neg hb]
    exact ih _

theorem copy_from_repeat_slice_pos (slice : List Nat) (limit : Nat)
    (hl : limit ≠ 0) (fuel : Nat) (out : List Nat) :
    copy_from_repeat_slice slice limit fuel out = none := by
  simp only [copy_from_repeat_slice, if_neg hl]
  rw [repeat_slice_read_go_none slice (min 8192 limit) (by omega) fuel 0]

/-- BPS TargetCopy instruction (bps.rs lines 179-215).  The state is the
output stream, modelled as the list of bytes written so far (the stream
position equals its length, since the decoder always returns to the append
point), together with the running target_relative_offset.  The offset is
first added with checked signed addition; the period is the checked
difference between the output position and the new offset, clamped to the
instruction length and required non-zero; that many already-written bytes
are read back into a scratch buffer; RepeatSlice::new is called on the
buffer (asserting its length exceeds one) and the instruction length is
copied from the repeating slice to the output. -/
def bps_target_copy (fuel : Nat) (out : List Nat) (tro : Nat) (length : Nat)
    (offset : Int) : StepResult (List Nat × Nat) :=
  if (tro : Int) + offset < 0 ∨ (2 : Int) ^ 64 ≤ (tro : Int) + offset then .err .badPatch
  else
    let tro2 : Nat := ((tro : Int) + offset).toNat
    if out.length < tro2 then .err .badPatch
    else
      let period := min (out.length - tro2) length
      if period = 0 then .err .badPatch
      else
        let buffer := (out.drop tro2).take period
        if buffer.length ≤ 1 then .panic
        else
          match copy_from_repeat_slice buffer length fuel out with
          | none => .diverge
          | some out2 =>
            if U64 ≤ tro2 + length then .err .badPatch else .ok (out2, tro2 + length)

/-- C3: the spec says a TargetCopy whose period (output position minus
target relative offset) is at least one terminates without panicking and
appends length bytes of the periodic replication of the written prefix.
In the code, RepeatSlice::new asserts that its slice is longer than one
byte (repeat.rs line 34, contradicting both its own doc comment, which
promises a panic only for an empty slice, and the length-one fast path in
RepeatSlice::read), so a period of exactly one panics; and for longer
periods RepeatSlice::read never advances past its destination buffer, so
the copy loop never terminates (contradicting the crate's own unit test
test_repeat_slice, which expects terminating reads): no TargetCopy
instruction can ever complete. -/
theorem C3_target_copy_never_completes :
    (∀ fuel, bps_target_copy fuel [7] 0 3 0 = .panic) ∧
    (∀ fuel, bps_target_copy fuel [7, 8] 0 3 0 = .diverge) ∧
    (∀ fuel out tro length offset r,
       bps_target_copy fuel out tro length offset ≠ .ok r) := by
  refine ⟨fun fuel => rfl, fun fuel => ?_, ?_⟩
  · show bps_target_copy fuel [7, 8] 0 3 0 = .diverge
    simp only [bps_target_copy]
    norm_num
    rw [copy_from_repeat_slice_pos _ 3 (by omega) fuel]
  · intro fuel out tro length offset r h
    simp only [bps_target_copy] at h
    split at h
    · cases h
    · split at h
      · cases h
      · split at h
        · cases h
        · split at h
          · cases h
          · rename_i hper hbuf
            rw [copy_from_repeat_slice_pos _ length (by omega) fuel] at h
            cases h

/-- Vcdiff COPY micro-instruction (vcd.rs, execute_instruction lines
219-233 together with WindowCursor::write_bytes and split_for_write, lines
365-386).  The superstring buffer and the cursor position are explicit;
written is the prefix below the position, unwritten the rest.
split_for_write returns BadPatch when fewer than size unwritten bytes
remain or size is zero; the closure then slices the written prefix at
[address, min (address + size) written.length) (a panic when address lies
beyond that end), wraps the slice in RepeatSlice::new (a panic when the
slice is not longer than one byte) and copies from it with a Take limited
to that same end index; the copy never terminates for a non-empty limit,
and were it to return without filling the Take, the surrounding exactly
combinator would report UnexpectedEof, mapped to BadPatch. -/
def vcd_execute_copy (fuel : Nat) (buffer : List Nat) (position size address : Nat) :
    StepResult (List Nat × Nat) :=
  if (buffer.drop position).length < size ∨ size = 0 then .err .badPatch
  else
    let seqEnd := min (address + size) (buffer.take position).length
    if seqEnd < address then .panic
    else
      let seq := ((buffer.take position).drop address).take (seqEnd - address)
      if seq.length ≤ 1 then .panic
      else
        match copy_from_repeat_slice seq seqEnd fuel (buffer.drop position) with
        | none => .diverge
        | some _ => .err .badPatch

/-- C7: the spec says a COPY whose resolved address lies outside the
superstring, or whose source range extends beyond the already-written
region, fails with BadPatch and does not panic.  In the code, an address
beyond the written region panics (the slice expression indexes the written
prefix with a start beyond its end), an address at the boundary, or a
one-byte source range, panics in the RepeatSlice::new assertion, and a
source range of two or more bytes makes the copy loop spin forever in
RepeatSlice::read; BadPatch is never returned for these inputs. -/
theorem C7_vcd_copy_out_of_range_panics :
    (∀ fuel, vcd_execute_copy fuel [5, 6, 0, 0] 2 2 3 = .panic) ∧
    (∀ fuel, vcd_execute_copy fuel [5, 6, 0, 0, 0] 2 3 0 = .diverge) ∧
    (∀ fuel buffer position size address r,
       vcd_execute_copy fuel buffer position size address ≠ .ok r) := by
  refine ⟨fun fuel => rfl, fun fuel => ?_, ?_⟩
  · show vcd_execute_copy fuel [5, 6, 0, 0, 0] 2 3 0 = .diverge
    simp only [vcd_execute_copy]
    norm_num
    rw [copy_from_repeat_slice_pos _ 2 (by omega) fuel]
  · intro fuel buffer position size address r h
    simp only [vcd_execute_copy] at h
    split at h
    · cases h
    · split at h
      · cases h
      · split at h
        · cases h
        · rename_i hsz hend hlen
          have hseq : min (address + size) (buffer.take position).length ≠ 0 := by
            rw [List.length_take] at hlen
            omega
          rw [copy_from_repeat_slice_pos _ _ hseq fuel] at h
          cases h

/-- Little-endian value of a list of bytes. -/
def le_value : List Nat → Nat
  | [] => 0
  | b :: rest => b + 256 * le_value rest

/-- The bytes of the PPF footer start marker (ppf.rs line 20). -/
def BEGIN_FILE_MAGIC : List Nat :=
  [0x40, 0x42, 0x45, 0x47, 0x49, 0x4E, 0x5F, 0x46, 0x49, 0x4C, 0x45, 0x5F,
   0x49, 0x44, 0x2E, 0x44, 0x49, 0x5A]

/-- The version-dependent shape of a PPF patch, as produced by
Format::parse_and_validate (ppf.rs lines 132-231): the record offset width
in bytes (4 for v1/v2, 8 for v3), whether a footer may follow the records
(v2/v3), and whether each record carries undo data (v3 only).  The optional
block check is not modelled; the claims under verification concern patches
without one (the v1 format, and v3 with the block-check flag clear), for
which Format.block_check is None and the corresponding match arm in the
record loop reduces to the plain copy_until call modelled here. -/
structure PpfConfig where
  offsetSize : Nat
  canHaveFooter : Bool
  hasUndoData : Bool

/-- The sentinel offset value that signals the start of the footer
(ppf.rs lines 40-44): the first offsetSize bytes of the footer start
marker read as a little-endian integer. -/
def ppf_magic_offset (cfg : PpfConfig) : Nat :=
  le_value (BEGIN_FILE_MAGIC.take cfg.offsetSize)

/-- Record loop of ppf::patch (ppf.rs lines 47-123) for a patch without a
block check.  State: the unread remainder of the patch data, the source
position (the PositionTracker around the MonotonicHashingReader), and the
output written so far.  Each iteration reads an offsetSize-byte
little-endian offset (stopping at the footer sentinel when a footer is
possible), a non-zero one-byte hunk length, validates the range from the
current source position to the offset, copies that range of source bytes to
the output, copies the hunk bytes from the patch to the output, skips the
undo bytes of the patch when present, and stops at patch end-of-file.  The
source position is only ever advanced by the copy_until call, mirroring the
code, which never skips the replaced source bytes after writing a hunk. -/
def ppf_apply_loop (cfg : PpfConfig) (rom : List Nat) :
    Nat → List Nat → Nat → List Nat → Option (Except PatchingError (Nat × List Nat))
  | 0, _, _, _ => none
  | fuel + 1, patchRest, romPos, out =>
    if patchRest.length < cfg.offsetSize then some (.error .badPatch)
    else
      let offset := le_value (patchRest.take cfg.offsetSize)
      if cfg.canHaveFooter ∧ offset = ppf_magic_offset cfg then some (.ok (romPos, out))
      else
        match patchRest.drop cfg.offsetSize with
        | [] => some (.error .badPatch)
        | hunkLength :: rest2 =>
          if hunkLength = 0 then some (.error .badPatch)
          else if offset < romPos then some (.error .badPatch)
          else if rom.length < offset then some (.error .inputFileTooSmall)
          else
            let out2 := out ++ (rom.drop romPos).take (offset - romPos)
            if rest2.length < hunkLength then some (.error .badPatch)
            else
              let out3 := out2 ++ rest2.take hunkLength
              let rest3 := rest2.drop hunkLength
              let rest4 := if cfg.hasUndoData then rest3.drop hunkLength else rest3
              if rest4 = [] then some (.ok (offset, out3))
              else ppf_apply_loop cfg rom fuel rest4 offset out3

/-- End of ppf::patch (ppf.rs lines 125-129): after the record loop, a run
that never moved the source position (no record reached a positive offset)
is rejected as BadPatch. -/
def ppf_apply_records (cfg : PpfConfig) (fuel : Nat) (rom patch : List Nat) :
    Option (Except PatchingError (List Nat)) :=
  match ppf_apply_loop cfg rom fuel patch 0 [] with
  | none => none
  | some (.error e) => some (.error e)
  | some (.ok (romPos, out)) =>
    if romPos = 0 then some (.error .badPatch) else some (.ok out)

/-- C2: the spec says that after writing a record's literal bytes the source
is advanced by the record length, so every output byte not covered by a
record equals the source byte at the same offset.  The code never advances
the source after writing a hunk: for a v1 patch with records at offsets 1
and 3 over the source 10 20 30 40 50, the decoder succeeds and re-emits the
replaced source byte 20, so the uncovered output position 2 holds 20 while
the source holds 30 there, and output position 4 holds the second record's
byte instead of a source byte; furthermore a patch whose only record is at
offset 0 leaves the source position at 0 and is rejected as BadPatch even
though it applied successfully. -/
theorem C2_ppf_source_not_advanced :
    ppf_apply_records ⟨4, false, false⟩ 9 [10, 20, 30, 40, 50]
        [1, 0, 0, 0, 1, 0xAA, 3, 0, 0, 0, 1, 0xBB] =
      some (.ok [10, 0xAA, 20, 30, 0xBB]) ∧
    [10, 0xAA, 20, 30, 0xBB] ≠ [10, 0xAA, 30, 0xBB] ∧
    ppf_apply_records ⟨4, false, false⟩ 9 [9, 9] [0, 0, 0, 0, 1, 0x77] =
      some (.error .badPatch) := by
  refine ⟨rfl, by decide, rfl⟩

/-- The four BPS instructions (bps.rs lines 253-258). -/
inductive Command
  | sourceRead (length : Nat)
  | targetRead (length : Nat)
  | sourceCopy (length : Nat) (offset : Int)
  | targetCopy (length : Nat) (offset : Int)
  deriving DecidableEq, Repr

/-- Signed varint decoder decode_signed (bps.rs lines 242-248): an unsigned
byuu varint whose low bit is the sign and whose remaining bits are the
magnitude. -/
def decode_signed (bytes : List Nat) : Except VarintError (Int × List Nat) :=
  match read_number bytes 1 0 with
  | .error e => .error e
  | .ok (data, rest) =>
    .ok ((if data &&& 1 = 1 then -1 else 1) * ((data >>> 1 : Nat) : Int), rest)

/-- Instruction decoder decode_command (bps.rs lines 229-240): a byuu varint
whose low two bits select the opcode and whose remaining bits, plus one,
give the length; opcodes 2 and 3 are followed by a signed varint. -/
def decode_command (bytes : List Nat) : Except VarintError (Command × List Nat) :=
  match read_number bytes 1 0 with
  | .error e => .error e
  | .ok (encoded, rest) =>
    let length := (encoded >>> 2) + 1
    if encoded &&& 3 = 0 then .ok (.sourceRead length, rest)
    else if encoded &&& 3 = 1 then .ok (.targetRead length, rest)
    else if encoded &&& 3 = 2 then
      match decode_signed rest with
      | .error e => .error e
      | .ok (offset, rest2) => .ok (.sourceCopy length offset, rest2)
    else
      match decode_signed rest with
      | .error e => .error e
      | .ok (offset, rest2) => .ok (.targetCopy length offset, rest2)

/-- State of the BPS instruction loop: the unread remainder of the patch
(between the current position and the footer), the output bytes written so
far (the output position equals their count), and the two running relative
offsets. -/
structure BpsState where
  patchRest : List Nat
  out : List Nat
  sro : Nat
  tro : Nat
  deriving DecidableEq, Repr

/-- Execution of a single BPS command (the match in apply_patch, bps.rs
lines 139-216) against the source rom and the expected source size declared
in the patch header.  SourceRead rejects an output position at or past the
declared source size, then copies length bytes of the actual source from
the output position (a short source is InputFileTooSmall).  TargetRead
copies length patch bytes.  SourceCopy advances the source offset with
checked signed addition, rejects an offset at or past the declared source
size, copies, then advances the offset by the length with checked addition.
TargetCopy is bps_target_copy. -/
def bps_exec_command (fuel srcSize : Nat) (rom : List Nat) (st : BpsState) :
    Command → StepResult BpsState
  | .sourceRead length =>
    if srcSize ≤ st.out.length then .err .badPatch
    else if rom.length < st.out.length + length then .err .inputFileTooSmall
    else .ok { st with out := st.out ++ (rom.drop st.out.length).take length }
  | .targetRead length =>
    if st.patchRest.length < length then .err .badPatch
    else .ok { st with
      out := st.out ++ st.patchRest.take length
      patchRest := st.patchRest.drop length }
  | .sourceCopy length offset =>
    if (st.sro : Int) + offset < 0 ∨ (2 : Int) ^ 64 ≤ (st.sro : Int) + offset then
      .err .badPatch
    else
      let sro2 := ((st.sro : Int) + offset).toNat
      if srcSize ≤ sro2 then .err .badPatch
      else if rom.length < sro2 + length then .err .inputFileTooSmall
      else if U64 ≤ sro2 + length then .err .badPatch
      else .ok { st with out := st.out ++ (rom.drop sro2).take length, sro := sro2 + length }
  | .targetCopy length offset =>
    match bps_target_copy fuel st.out st.tro length offset with
    | .ok (out2, tro2) => .ok { st with out := out2, tro := tro2 }
    | .err e => .err e
    | .panic => .panic
    | .diverge => .diverge

/-- Instruction loop of apply_patch (bps.rs lines 138-223): decode a
command, execute it, then compare the patch position (measured from the
start of the command stream of length patchLen) with the footer position:
below it the loop continues, at it the loop ends successfully, past it the
patch is bad.  Varint failures while decoding are BadPatch. -/
def bps_apply (srcSize patchLen footer : Nat) (rom : List Nat) :
    Nat → BpsState → Option (StepResult (List Nat))
  | 0, _ => none
  | fuel + 1, st =>
    match decode_command st.patchRest with
    | .error _ => some (.err .badPatch)
    | .ok (c, rest) =>
      match bps_exec_command (fuel + 1) srcSize rom { st with patchRest := rest } c with
      | .err e => some (.err e)
      | .panic => some .panic
      | .diverge => some .diverge
      | .ok st2 =>
        let pos := patchLen - st2.patchRest.length
        if pos < footer then bps_apply srcSize patchLen footer rom fuel st2
        else if pos = footer then some (.ok st2.out)
        else some (.err .badPatch)

/-- C6 counterexample: the claim says a SourceRead with output_position +
length exceeding the declared source size fails with BadPatch.  Against a
declared source size of 4, a patch whose commands are TargetRead(2) of the
bytes 9 9 followed by SourceRead(3) executes the SourceRead at output
position 2 with 2 + 3 > 4, yet the decoder succeeds on a six-byte actual
source, returning the bytes read from positions 2, 3 and 4 of the source. -/
theorem C6_sourceread_counterexample :
    decode_command [0x88] = .ok (.sourceRead 3, []) ∧
    2 + 3 > 4 ∧
    bps_apply 4 4 4 [1, 2, 3, 4, 5, 6] 5 ⟨[0x85, 9, 9, 0x88], [], 0, 0⟩ =
      some (.ok [9, 9, 3, 4, 5]) := by
  refine ⟨rfl, by omega, rfl⟩

/-- C6 amended: SourceRead fails with BadPatch exactly when the output
position at the start of the instruction is at or past the declared source
size; otherwise the actual source file is read at the output position, with
a short actual source reported as InputFileTooSmall and no comparison of
output_position + length against the declared source size. -/
theorem C6_sourceread_checks_start_only (fuel srcSize : Nat) (rom : List Nat)
    (st : BpsState) (length : Nat) :
    (srcSize ≤ st.out.length →
       bps_exec_command fuel srcSize rom st (.sourceRead length) = .err .badPatch) ∧
    (st.out.length < srcSize → rom.length < st.out.length + length →
       bps_exec_command fuel srcSize rom st (.sourceRead length) = .err .inputFileTooSmall) ∧
    (st.out.length < srcSize → st.out.length + length ≤ rom.length →
       bps_exec_command fuel srcSize rom st (.sourceRead length) =
         .ok { st with out := st.out ++ (rom.drop st.out.length).take length }) := by
  refine ⟨fun h1 => ?_, fun h1 h2 => ?_, fun h1 h2 => ?_⟩
  · simp [bps_exec_command, if_pos h1]
  · simp [bps_exec_command, if_neg (by omega : ¬ srcSize ≤ st.out.length), if_pos h2]
  · simp [bps_exec_command, if_neg (by omega : ¬ srcSize ≤ st.out.length),
      if_neg (by omega : ¬ rom.length < st.out.length + length)]

/-- C6 witness: the amended theorem applied to the SourceRead of the
counterexample run (output position 2, length 3, declared source size 4,
actual source of six bytes). -/
theorem C6_sourceread_checks_start_only_witness :
    bps_exec_command 5 4 [1, 2, 3, 4, 5, 6] ⟨[], [9, 9], 0, 0⟩ (.sourceRead 3) =
      .ok ⟨[], [9, 9, 3, 4, 5], 0, 0⟩ := by
  have h := (C6_sourceread_checks_start_only 5 4 [1, 2, 3, 4, 5, 6]
    ⟨[], [9, 9], 0, 0⟩ 3).2.2 (by decide) (by decide)
  simpa using h

/-- State of the UPS decoding loop: the source bytes with the current
source position, the unread remainder of the patch data, and the output
written so far.  In the code the three streams advance in lockstep through
PositionTracker wrappers; here the source position is explicit because the
source can fall behind the output when the zero-byte padding inside a hunk
kicks in. -/
structure UpsState where
  rom : List Nat
  romPos : Nat
  patchRest : List Nat
  out : List Nat
  deriving DecidableEq, Repr

/-- One UPS XOR hunk, from apply_patch_block (ups.rs lines 164-205): bytes
of the patch up to the first 0x00 delimiter are XORed with the
corresponding source bytes (the source chained with an infinite supply of
zero bytes, so a source at end-of-file contributes zeros) and appended to
the output; the delimiter is consumed without being XORed.  The source
position advances only by the bytes actually read from the source.  A patch
that ends before a delimiter is found is BadPatch. -/
def ups_apply_block (st : UpsState) : Except PatchingError UpsState :=
  match st.patchRest.findIdx? (· = 0) with
  | none => .error .badPatch
  | some i =>
    let block := st.patchRest.take i
    let avail := (st.rom.drop st.romPos).take i
    let romBytes := avail ++ List.replicate (i - avail.length) 0
    .ok { st with
      romPos := st.romPos + avail.length
      patchRest := st.patchRest.drop (i + 1)
      out := st.out ++ List.zipWith (· ^^^ ·) block romBytes }

/-- Hunk loop of the UPS apply_patch (ups.rs lines 126-152): read a byuu
varint relative offset, copy that many source bytes (plus one on every
iteration after the first, accounting for the delimiter consumed by the
previous block) verbatim to the output with copy_to_other_exactly (a short
source is InputFileTooSmall via map_rom_err), apply one XOR block, then
compare the patch position (measured from the start of the hunk data of
length patchLen) with the footer position as in BPS. -/
def ups_apply_loop (patchLen footer : Nat) :
    Nat → Bool → UpsState → Option (Except PatchingError UpsState)
  | 0, _, _ => none
  | fuel + 1, isSubsequent, st =>
    match read_number st.patchRest 1 0 with
    | .error _ => some (.error .badPatch)
    | .ok (relativeOffset, rest) =>
      let amt := (if isSubsequent then 1 else 0) + relativeOffset
      if st.rom.length < st.romPos + amt then some (.error .inputFileTooSmall)
      else
        match ups_apply_block { st with
          romPos := st.romPos + amt
          patchRest := rest
          out := st.out ++ (st.rom.drop st.romPos).take amt } with
        | .error e => some (.error e)
        | .ok st2 =>
          let pos := patchLen - st2.patchRest.length
          if pos < footer then ups_apply_loop patchLen footer fuel true st2
          else if pos = footer then some (.ok st2)
          else some (.error .badPatch)

/-- Final copy of the UPS apply_patch (ups.rs lines 154-158):
rom.copy_to_other_until(expected_target_size, output) transfers exactly
target_size minus source_position bytes from the source to the output.
A target size below the source position is InvalidInput, mapped by
map_rom_err to BadPatch; a source that reaches end-of-file first is
UnexpectedEof, mapped to InputFileTooSmall.  No zero padding is applied
here: the repeat(0) chain exists only inside ups_apply_block. -/
def ups_tail_copy (targetSize : Nat) (st : UpsState) : Except PatchingError (List Nat) :=
  if targetSize < st.romPos then .error .badPatch
  else if st.rom.length < targetSize then .error .inputFileTooSmall
  else .ok (st.out ++ (st.rom.drop st.romPos).take (targetSize - st.romPos))

/-- The UPS apply_patch function (ups.rs lines 119-161): the hunk loop
followed by the final source copy up to the expected target size. -/
def ups_apply (fuel patchLen footer targetSize : Nat) (st : UpsState) :
    Option (Except PatchingError (List Nat)) :=
  match ups_apply_loop patchLen footer fuel false st with
  | none => none
  | some (.error e) => some (.error e)
  | some (.ok st2) => some (ups_tail_copy targetSize st2)

/-- C5: the spec says that after the last hunk the remaining source bytes
are copied to the output up to target_size, padded with zeros when the
source is shorter, so that a valid UPS patch over a short source succeeds
and yields exactly target_size bytes.  For an empty source, a target size
of 1, and patch data consisting of the hunk 0x80 0x00 (relative offset 0,
empty XOR block) followed by the footer, the decoder should emit the single
zero byte; instead the final copy reads past the source end and the decoder
fails with InputFileTooSmall, because the rewrite of the final copy dropped
the chain with the zero repeater that the padding requires. -/
theorem C5_ups_tail_has_no_zero_padding :
    ups_apply 9 2 2 1 ⟨[], 0, [0x80, 0x00], []⟩ = some (.error .inputFileTooSmall) ∧
    (some (.error .inputFileTooSmall) : Option (Except PatchingError (List Nat))) ≠
      some (.ok [0]) ∧
    ups_tail_copy 1 ⟨[], 0, [], []⟩ = .error .inputFileTooSmall := by
  refine ⟨rfl, fun h => Except.noConfusion (Option.some.inj h), rfl⟩

/-- State of a MonotonicHashingReader over a fixed source
(read-write-utils/src/hash/contiguous.rs): the tracked position S of the
inner reader, the tracked position H of the hasher cursor (the count of
bytes fed to the hasher), and the sequence of bytes fed so far.  The CRC-32
of the final hasher state equals the CRC-32 of the source exactly when fed
equals the source byte sequence.  The inner reader is modelled with
in-memory cursor semantics: fill_buf yields the whole remainder of the
source, reads return up to the requested count, and seeks past end-of-file
are accepted. -/
structure MhrState where
  S : Nat
  H : Nat
  fed : List Nat
  deriving DecidableEq, Repr

/-- The operations a decoder performs on a MonotonicHashingReader. -/
inductive MhrOp
  | read (n : Nat)
  | consume (n : Nat)
  | seekStart (p : Nat)
  | seekCur (off : Int)
  | seekEnd (off : Int)
  deriving DecidableEq, Repr

/-- Hashing step shared by read and consume (read_and_hash, contiguous.rs
lines 159-178): of the data just obtained from position S, the part below
the hasher position H has already been hashed and is skipped; the hasher
receives the rest.  When the hashed length does not fit the data (including
the wrapped subtraction when S is past H), nothing is hashed. -/
def mhr_unhashed_part (st : MhrState) (data : List Nat) : List Nat :=
  if st.S ≤ st.H ∧ st.H - st.S ≤ data.length then data.drop (st.H - st.S) else []

/-- seek_and_hash_to (contiguous.rs lines 180-196): seeking at or below the
hasher position moves only the inner reader; seeking above it first moves
the inner reader to the hasher position and then streams the intervening
source bytes into the hasher, stopping at end-of-file. -/
def mhr_seek_and_hash_to (source : List Nat) (st : MhrState) (p : Nat) : MhrState :=
  if p ≤ st.H then { st with S := p }
  else
    let k := min (p - st.H) (source.length - st.H)
    { S := st.H + k, H := st.H + k, fed := st.fed ++ (source.drop st.H).take k }

/-- One MonotonicHashingReader operation (contiguous.rs lines 65-130).
The result is none when the underlying operation fails or panics: a consume
larger than the buffered remainder (the slice expression in the consume
closure), or a seek to a negative position. -/
def mhr_step (source : List Nat) (st : MhrState) : MhrOp → Option MhrState
  | .read n =>
    let data := (source.drop st.S).take n
    let unhashed := mhr_unhashed_part st data
    some { S := st.S + data.length, H := st.H + unhashed.length, fed := st.fed ++ unhashed }
  | .consume n =>
    if (source.drop st.S).length < n then none
    else
      let data := (source.drop st.S).take n
      let unhashed := mhr_unhashed_part st data
      some { S := st.S + n, H := st.H + unhashed.length, fed := st.fed ++ unhashed }
  | .seekStart p => some (mhr_seek_and_hash_to source st p)
  | .seekCur off =>
    if (st.S : Int) + off < 0 then none
    else some (mhr_seek_and_hash_to source st ((st.S : Int) + off).toNat)
  | .seekEnd off =>
    let buf := source.drop st.S
    let st2 :=
      if 0 ≤ (buf.length : Int) + off then
        let safe := min ((buf.length : Int) + off).toNat buf.length
        { S := st.S + safe, H := st.H + safe, fed := st.fed ++ buf.take safe }
      else st
    if (source.length : Int) + off < 0 then none
    else some (mhr_seek_and_hash_to source st2 ((source.length : Int) + off).toNat)

/-- Run of a sequence of operations from the initial state. -/
def mhr_run (source : List Nat) (ops : List MhrOp) : Option MhrState :=
  ops.foldlM (fun st op => mhr_step source st op) ⟨0, 0, []⟩

/-- C4: the spec says that for every sequence of reads, consumes and seeks
ending at end-of-file, the hasher has been fed every source byte exactly
once and in order.  The SeekFrom::End branch (contiguous.rs lines 104-120)
feeds the buffered bytes ahead of the reader to the hasher without checking
them against the hasher position, so a backward Start-seek followed by an
End-seek double-hashes the already-hashed prefix: over the one-byte source
1, the sequence read 1, seek Start 0, seek End 0 leaves the reader at
end-of-file with the hasher fed the byte twice. -/
theorem C4_seek_end_double_hashes :
    mhr_run [1] [.read 1, .seekStart 0, .seekEnd 0] = some ⟨1, 2, [1, 1]⟩ ∧
    ([1, 1] : List Nat) ≠ [1] ∧ (1 : Nat) = List.length [1] := by
  refine ⟨rfl, by decide, rfl⟩

/-- The IPS end-of-records marker: the 3-byte big-endian value spelling
ASCII EOF (ips.rs line 14). -/
def EOF_OFFSET : Nat := 0x454F46

/-- Record loop of ips::patch (ips.rs lines 36-79).  State: the unread
remainder of the patch after the magic, the source position, and the output
so far.  Each iteration reads a 3-byte big-endian offset (stopping at the
EOF marker), copies source bytes up to the offset
(copy_to_other_until: an offset behind the source position is InvalidInput,
mapped by map_rom_err to BadPatch; a short source is InputFileTooSmall),
then reads a 2-byte big-endian size: a positive size is that many literal
bytes copied from the patch, size zero is a run-length record of a non-zero
2-byte length and one repeated byte; finally the source is advanced past
the replaced bytes with seek_relative.  The loop result is the remaining
patch bytes (after the EOF marker), the source position and the output. -/
def ips_loop (rom : List Nat) :
    Nat → List Nat → Nat → List Nat →
      Option (Except PatchingError (List Nat × Nat × List Nat))
  | 0, _, _, _ => none
  | fuel + 1, patchRest, romPos, out =>
    match patchRest with
    | o0 :: o1 :: o2 :: rest =>
      let offset := (o0 * 256 + o1) * 256 + o2
      if offset = EOF_OFFSET then some (.ok (rest, romPos, out))
      else if offset < romPos then some (.error .badPatch)
      else if rom.length < offset then some (.error .inputFileTooSmall)
      else
        let out2 := out ++ (rom.drop romPos).take (offset - romPos)
        match rest with
        | s0 :: s1 :: rest2 =>
          let size := s0 * 256 + s1
          if size ≠ 0 then
            if rest2.length < size then some (.error .badPatch)
            else ips_loop rom fuel (rest2.drop size) (offset + size) (out2 ++ rest2.take size)
          else
            match rest2 with
            | l0 :: l1 :: b :: rest3 =>
              let patternLen := l0 * 256 + l1
              if patternLen = 0 then some (.error .badPatch)
              else ips_loop rom fuel rest3 (offset + patternLen)
                     (out2 ++ List.replicate patternLen b)
            | _ => some (.error .badPatch)
        | _ => some (.error .badPatch)
    | _ => some (.error .badPatch)

/-- Big-endian value of the first three bytes of a list. -/
def be_u24 : List Nat → Nat
  | b0 :: b1 :: b2 :: _ => (b0 * 256 + b1) * 256 + b2
  | _ => 0

/-- The ips::patch function (ips.rs lines 23-114): the 5-byte PATCH magic,
the record loop, then the optional 3-byte big-endian truncated-size
trailer.  With no trailer (the patch ends right after the EOF marker), an
empty output means no record was applied and the patch is rejected as
BadPatch; otherwise the rest of the source is copied to the output.  With a
trailer, the trailer must be exactly three bytes ending the patch and at
least as large as the output position; the source is then copied up to the
truncated size.  The result is the output stream. -/
def ips_patch (fuel : Nat) (rom patch : List Nat) :
    Option (Except PatchingError (List Nat)) :=
  if patch.length < 5 then some (.error .badPatch)
  else if patch.take 5 ≠ [0x50, 0x41, 0x54, 0x43, 0x48] then some (.error .badPatch)
  else
    match ips_loop rom fuel (patch.drop 5) 0 [] with
    | none => none
    | some (.error e) => some (.error e)
    | some (.ok (rest, romPos, out)) =>
      match rest with
      | [] =>
        if out.length = 0 then some (.error .badPatch)
        else some (.ok (out ++ rom.drop romPos))
      | _ =>
        if rest.length < 3 then some (.error .badPatch)
        else
          let truncated := be_u24 rest
          if truncated < out.length ∨ rest.length ≠ 3 then some (.error .badPatch)
          else if truncated < romPos then some (.error .badPatch)
          else if rom.length < truncated then some (.error .inputFileTooSmall)
          else some (.ok (out ++ (rom.drop romPos).take (truncated - romPos)))

/-- C8 counterexample: the claim says a record-less IPS patch fails with
BadPatch whether or not the truncated-size trailer is present.  The patch
PATCH EOF 0 0 2 has no records and carries a trailer of value 2; over the
source 1 2 3 the decoder succeeds and returns the two-byte truncation. -/
theorem C8_recordless_with_trailer_accepted :
    ips_patch 5 [1, 2, 3]
        [0x50, 0x41, 0x54, 0x43, 0x48, 0x45, 0x4F, 0x46, 0, 0, 2] =
      some (.ok [1, 2]) := by
  rfl

/-- C8 amended: a record-less IPS patch is rejected as BadPatch exactly
when the optional truncated-size trailer is absent; when a well-formed
trailer is present the patch is accepted as a pure truncation (the code
comments that a patch that only truncates the file could be valid). -/
theorem C8_recordless_rejected_without_trailer (rom : List Nat) (fuel : Nat) :
    ips_patch (fuel + 1) rom [0x50, 0x41, 0x54, 0x43, 0x48, 0x45, 0x4F, 0x46] =
      some (.error .badPatch) := by
  rfl

/-- Outcome of a whole decoder run: success or one of the taxonomy errors. -/
inductive PatchOutcome
  | ok
  | err (e : PatchingError)
  deriving DecidableEq, Repr

/-- Validation tail of bps::patch (bps.rs lines 64-119), after apply_patch
has produced applyResult and the checksums and sizes have been computed:
first the patch's internal CRC is compared against the expected patch CRC
from the footer (a mismatch is BadPatch, reported before any apply error);
then an apply error is propagated; then the actual target size must equal
the expected target size (else BadPatch); then, in strict mode, a source
CRC or source size mismatch is AlreadyPatched when the actual source CRC
equals the expected target CRC and WrongInputFile otherwise, and a target
CRC mismatch with a matching source is WrongInputFile. -/
def bps_finish (strict : Bool) (applyResult : Option PatchingError)
    (patchInternalCrc expectedPatchCrc : Nat)
    (actualTargetSize expectedTargetSize : Nat)
    (actualSourceCrc expectedSourceCrc : Nat)
    (actualSourceSize expectedSourceSize : Nat)
    (actualTargetCrc expectedTargetCrc : Nat) : PatchOutcome :=
  if patchInternalCrc ≠ expectedPatchCrc then .err .badPatch
  else
    match applyResult with
    | some e => .err e
    | none =>
      if actualTargetSize ≠ expectedTargetSize then .err .badPatch
      else if strict then
        if actualSourceCrc ≠ expectedSourceCrc ∨ actualSourceSize ≠ expectedSourceSize then
          if actualSourceCrc = expectedTargetCrc then .err .alreadyPatched
          else .err .wrongInputFile
        else if actualTargetCrc ≠ expectedTargetCrc then .err .wrongInputFile
        else .ok
      else .ok

/-- Validation tail of ups::patch (ups.rs lines 57-116); the code is
line-for-line the same as the BPS one. -/
def ups_finish (strict : Bool) (applyResult : Option PatchingError)
    (patchInternalCrc expectedPatchCrc : Nat)
    (actualTargetSize expectedTargetSize : Nat)
    (actualSourceCrc expectedSourceCrc : Nat)
    (actualSourceSize expectedSourceSize : Nat)
    (actualTargetCrc expectedTargetCrc : Nat) : PatchOutcome :=
  if patchInternalCrc ≠ expectedPatchCrc then .err .badPatch
  else
    match applyResult with
    | some e => .err e
    | none =>
      if actualTargetSize ≠ expectedTargetSize then .err .badPatch
      else if strict then
        if actualSourceCrc ≠ expectedSourceCrc ∨ actualSourceSize ≠ expectedSourceSize then
          if actualSourceCrc = expectedTargetCrc then .err .alreadyPatched
          else .err .wrongInputFile
        else if actualTargetCrc ≠ expectedTargetCrc then .err .wrongInputFile
        else .ok
      else .ok

/-- C9: for the UPS and BPS decoders in strict mode, when the patch is
internally valid (its internal CRC matches, patching itself succeeded, and
the produced size matches the declared target size), a source CRC or source
size mismatch fails with AlreadyPatched exactly when the actual source CRC
equals the expected target CRC and with WrongInputFile otherwise; and a
target CRC mismatch despite a matching source fails with WrongInputFile. -/
theorem C9_strict_mode_diagnostics
    (pic epc ats ets asc esc ass ess atc etcrc : Nat)
    (hpc : pic = epc) (hts : ats = ets) :
    ((asc ≠ esc ∨ ass ≠ ess) →
       (bps_finish true none pic epc ats ets asc esc ass ess atc etcrc =
          (if asc = etcrc then .err .alreadyPatched else .err .wrongInputFile) ∧
        ups_finish true none pic epc ats ets asc esc ass ess atc etcrc =
          (if asc = etcrc then .err .alreadyPatched else .err .wrongInputFile))) ∧
    ((asc = esc ∧ ass = ess ∧ atc ≠ etcrc) →
       (bps_finish true none pic epc ats ets asc esc ass ess atc etcrc =
          .err .wrongInputFile ∧
        ups_finish true none pic epc ats ets asc esc ass ess atc etcrc =
          .err .wrongInputFile)) := by
  subst hpc; subst hts
  constructor
  · intro hmism
    constructor
    · simp only [bps_finish, if_pos hmism]
      rw [if_neg (by omega), if_neg (by omega)]
      exact if_pos trivial
    · simp only [ups_finish, if_pos hmism]
      rw [if_neg (by omega), if_neg (by omega)]
      exact if_pos trivial
  · rintro ⟨h1, h2, h3⟩
    subst h1; subst h2
    constructor
    · simp only [bps_finish]
      rw [if_neg (by omega), if_neg (by omega), if_pos trivial, if_neg (by simp),
        if_pos h3]
    · simp only [ups_finish]
      rw [if_neg (by omega), if_neg (by omega), if_pos trivial, if_neg (by simp),
        if_pos h3]

/-- C9 witness: concrete strict-mode runs through both validation tails:
a source CRC mismatch equal to the expected target CRC is AlreadyPatched,
one different from it is WrongInputFile, and a matching source with a
mismatched target CRC is WrongInputFile. -/
theorem C9_strict_mode_diagnostics_witness :
    bps_finish true none 7 7 10 10 5 4 10 10 9 5 = .err .alreadyPatched ∧
    ups_finish true none 7 7 10 10 5 4 10 10 9 6 = .err .wrongInputFile ∧
    bps_finish true none 7 7 10 10 4 4 10 10 9 8 = .err .wrongInputFile := by
  refine ⟨?_, ?_, ?_⟩
  · have h := (C9_strict_mode_diagnostics 7 7 10 10 5 4 10 10 9 5 rfl rfl).1
      (Or.inl (by decide))
    rw [h.1]
    decide
  · have h := (C9_strict_mode_diagnostics 7 7 10 10 5 4 10 10 9 6 rfl rfl).1
      (Or.inl (by decide))
    rw [h.2]
    decide
  · exact ((C9_strict_mode_diagnostics 7 7 10 10 4 4 10 10 9 8 rfl rfl).2
      ⟨rfl, rfl, by decide⟩).1

end Rompatcher
